import Mathlib

/-!
MedTrackr: a verification development of `src/App.js`

The application keeps two pieces of state, the medication list `meds` and the
dose log `logs`, and talks to two collaborators: the local notification
service (schedule / cancel) and a key-value store.  Every handler of `App.js`
that carries logic is embedded below as a pure function over explicit state.

Conventions of the embedding

* JavaScript strings are Lean strings; `length` is counted in UTF-16 code
  units (`utf16Length`), `trim` and `parseInt` use the ECMAScript white-space
  set.
* A JavaScript number that the code inspects is a `JsNum`: `undefined`
  (a destructured array slot that does not exist), `NaN`, or an integer.
* `Math.round ((100 * taken) / scheduled)` is evaluated over the rationals.
* the notification service is a record of two functions over an abstract
  state (`Notifier`); theorems quantify over every such service.
* the key-value store is a function from keys to optional strings that serves
  its requests in the order they are issued; `JSON.parse` reads `[]` as the
  empty array and is a parameter on every other text.
* a handler that shows an alert returns the alert next to the new state.
-/

namespace MedTrackr

/-! ## JavaScript string primitives -/

/-- ECMAScript `WhiteSpace` and `LineTerminator` code points, the characters
removed by `String.prototype.trim` and skipped by `parseInt`. -/
def isJsWhitespace (c : Char) : Bool :=
  let n := c.toNat
  n == 0x09 || n == 0x0A || n == 0x0B || n == 0x0C || n == 0x0D || n == 0x20 ||
  n == 0xA0 || n == 0x1680 || (0x2000 ≤ n && n ≤ 0x200A) || n == 0x2028 ||
  n == 0x2029 || n == 0x202F || n == 0x205F || n == 0x3000 || n == 0xFEFF

/-- Characters of `s.trim()`. -/
def trimChars (cs : List Char) : List Char :=
  ((cs.dropWhile isJsWhitespace).reverse.dropWhile isJsWhitespace).reverse

/-- The JavaScript `s.trim()`. -/
def jsTrim (s : String) : String := ⟨trimChars s.data⟩

/-- Worker of `jsSplit`: `cur` is the current piece, reversed. -/
def splitAux (sep : Char) : List Char → List Char → List (List Char)
  | cur, [] => [cur.reverse]
  | cur, c :: cs =>
    if c = sep then cur.reverse :: splitAux sep [] cs else splitAux sep (c :: cur) cs

/-- The JavaScript `s.split(sep)` for a one-character separator. -/
def jsSplit (s : String) (sep : Char) : List String :=
  (splitAux sep [] s.data).map String.mk

/-- The JavaScript `s.length`: the number of UTF-16 code units. -/
def utf16Length (s : String) : Nat :=
  (s.data.map (fun c => if c.toNat < 0x10000 then 1 else 2)).sum

/-- The JavaScript `xs.join(sep)`. -/
def jsJoin (sep : String) : List String → String
  | [] => ""
  | [x] => x
  | x :: y :: rest => x ++ sep ++ jsJoin sep (y :: rest)

/-- A JavaScript value that is `undefined`, `NaN` or an integral number. -/
inductive JsNum where
  | undefined
  | nan
  | num (n : Int)
  deriving DecidableEq, Repr

/-- The JavaScript `Number.isNaN(v)`: true for `NaN` only (no coercion, so
`undefined` gives false). -/
def JsNum.isNaN : JsNum → Bool
  | .nan => true
  | _ => false

/-- The JavaScript `v > k`: false when `v` is `NaN` or `undefined` (which
converts to `NaN`). -/
def JsNum.gt : JsNum → Int → Bool
  | .num n, k => decide (k < n)
  | _, _ => false

/-- Value of a run of decimal digits, most significant first. -/
def digitsValue (ds : List Char) : Nat :=
  ds.foldl (fun acc d => 10 * acc + (d.toNat - 48)) 0

/-- The JavaScript `parseInt(x, 10)`: leading white space is skipped, one
optional sign is read, then the longest run of decimal digits; no digit gives
`NaN`, whatever follows the digits is ignored. -/
def parseInt10 (x : String) : JsNum :=
  let cs := x.data.dropWhile isJsWhitespace
  let (neg, rest) :=
    match cs with
    | '-' :: r => (true, r)
    | '+' :: r => (false, r)
    | r => (false, r)
  let ds := rest.takeWhile Char.isDigit
  if ds.isEmpty then .nan
  else if neg then .num (-(digitsValue ds : Int)) else .num (digitsValue ds)

/-! ## Data model -/

/-- A medication record `{id, name, times, notifIds}`; `notifIds` is the
object used as a map from a time string to a notification id, absent on a
record that was stored without it. -/
structure Medication where
  id : String
  name : String
  times : List String
  notifIds : Option (List (String × String))
  deriving DecidableEq, Repr

/-- A dose-log entry `{date, medId, time, takenAtISO}`. -/
structure DoseLog where
  date : String
  medId : String
  time : String
  takenAtISO : String
  deriving DecidableEq, Repr

/-! ## Dose log -/

/-- The `isTaken` helper: `logs.some(l => l.medId === medId && l.time === time && l.date === dateStr)`. -/
def isTaken (logs : List DoseLog) (medId time dateStr : String) : Bool :=
  logs.any (fun l => l.medId == medId && l.time == time && l.date == dateStr)

/-- The `markTaken` handler: nothing happens when the dose is already logged for `today`,
otherwise one entry is appended.  `nowISO` is `new Date().toISOString()`. -/
def markTaken (today nowISO : String) (logs : List DoseLog) (medId time : String) :
    List DoseLog :=
  if isTaken logs medId time today then logs
  else logs ++ [{ date := today, medId := medId, time := time, takenAtISO := nowISO }]

/-- Successive `markTaken (medId, time)` calls on one date; the list holds the
timestamp read by each call. -/
def markTakenMany (today : String) (logs : List DoseLog) (medId time : String) :
    List String → List DoseLog
  | [] => logs
  | nowISO :: later => markTakenMany today (markTaken today nowISO logs medId time) medId time later

/-- Number of log entries for one `(date, medId, time)` triple. -/
def entriesFor (logs : List DoseLog) (date medId time : String) : Nat :=
  logs.countP (fun l => l.medId == medId && l.time == time && l.date == date)

/-- No two entries of the log share a `(date, medId, time)` triple. -/
def NoDuplicateSlots (logs : List DoseLog) : Prop :=
  logs.Pairwise (fun a b => ¬ (a.date = b.date ∧ a.medId = b.medId ∧ a.time = b.time))

/-! ## 7-day adherence -/

/-- The JavaScript `Math.round` on an exact rational: the nearest integer,
a half going up.  For the quotients of the adherence computation (counts
below `2 ^ 32`, the bound on an array length) the double-precision result is
the same integer. -/
def mathRound (q : ℚ) : Int := Int.floor (q + 1 / 2)

/-- Result `{ pct, scheduled, taken }` of the adherence computation. -/
structure Adherence where
  pct : Int
  scheduled : Nat
  taken : Nat
  deriving DecidableEq, Repr

/-- The adherence `useMemo`.  `daysAgo i` is
`dayjs().subtract(i, "day").format("YYYY-MM-DD")`. -/
def adherence (daysAgo : Nat → String) (meds : List Medication) (logs : List DoseLog) :
    Adherence :=
  let days := (List.range 7).map daysAgo
  let scheduledCount : Nat :=
    days.foldl (fun acc _ => acc + meds.foldl (fun a m => a + m.times.length) 0) 0
  let takenCount : Nat := (logs.filter (fun l => days.contains l.date)).length
  let p : Int :=
    if scheduledCount = 0 then 0
    else mathRound ((100 * (takenCount : ℚ)) / (scheduledCount : ℚ))
  { pct := p, scheduled := scheduledCount, taken := takenCount }

/-- Calendar date `YYYY-MM-DD` of a day number counted from 1970-01-01
(proleptic Gregorian calendar), for years 0 to 9999. -/
def ymd (day : Int) : String :=
  let z := day + 719468
  let era := z / 146097
  let doe := z - era * 146097
  let yoe := (doe - doe / 1460 + doe / 36524 - doe / 146096) / 365
  let doy := doe - (365 * yoe + yoe / 4 - yoe / 100)
  let mp := (5 * doy + 2) / 153
  let d := doy - (153 * mp + 2) / 5 + 1
  let m := if mp < 10 then mp + 3 else mp - 9
  let y := yoe + era * 400 + (if m ≤ 2 then 1 else 0)
  let pad (w : Nat) (n : Int) : String :=
    let s := toString n.toNat
    String.mk (List.replicate (w - s.length) '0') ++ s
  pad 4 y ++ "-" ++ pad 2 m ++ "-" ++ pad 2 d

/-- The clock of a device whose local date is day number `today`. -/
def clockAt (today : Int) : Nat → String := fun i => ymd (today - i)

/-- Two medications with one and two times. -/
def exampleMeds : List Medication :=
  [ { id := "1700000000000", name := "Amoxicillin", times := ["08:00"],
      notifIds := some [("08:00", "n1")] },
    { id := "1700000000001", name := "Ibuprofen", times := ["09:00", "21:00"],
      notifIds := some [("09:00", "n2"), ("21:00", "n3")] } ]

/-- Six log entries, five of them inside the window that ends on 2024-02-29. -/
def exampleLogs : List DoseLog :=
  [ { date := "2024-02-29", medId := "1700000000000", time := "08:00", takenAtISO := "a" },
    { date := "2024-02-28", medId := "1700000000000", time := "08:00", takenAtISO := "b" },
    { date := "2024-02-28", medId := "1700000000001", time := "09:00", takenAtISO := "c" },
    { date := "2024-02-25", medId := "1700000000001", time := "21:00", takenAtISO := "d" },
    { date := "2024-02-23", medId := "1700000000001", time := "09:00", takenAtISO := "e" },
    { date := "2024-02-22", medId := "1700000000001", time := "09:00", takenAtISO := "f" } ]

/-- The seven dates of the trailing window, today first. -/
def windowDates (daysAgo : Nat → String) : List String :=
  [daysAgo 0, daysAgo 1, daysAgo 2, daysAgo 3, daysAgo 4, daysAgo 5, daysAgo 6]

/-- A log entry dated 2024-02-29. -/
def exampleEntry : DoseLog :=
  { date := "2024-02-29", medId := "1700000000000", time := "08:00",
    takenAtISO := "2024-02-29T08:01:00.000Z" }

/-! ## Notification collaborator -/

/-- The `content` of a notification request. -/
structure Content where
  title : String
  body : String
  sound : Bool
  deriving DecidableEq, Repr

/-- The `trigger` of a notification request, `{ hour, minute, repeats }`. -/
structure Trigger where
  hour : JsNum
  minute : JsNum
  repeats : Bool
  deriving DecidableEq, Repr

/-- Modelled from the spec: the notification collaborator (the
`expo-notifications` package, not part of the repository), as the two
operations `schedule(content, trigger) → handle` and `cancel(handle) → void`
over a state `σ` of its own.  A rejected `schedule` returns the error message
and leaves the state as it was; `cancel` returns the state it leaves behind,
whether it succeeded or threw. -/
structure Notifier (σ : Type) where
  schedule : σ → Content → Trigger → Except String (String × σ)
  cancel : σ → String → σ

/-- A reminder held by the reference device. -/
structure Reminder where
  id : String
  content : Content
  trigger : Trigger
  deriving DecidableEq, Repr

/-- State of the reference device: the permission flag, the number of handles
issued so far and the reminders that are scheduled. -/
structure Device where
  granted : Bool
  issued : Nat
  active : List Reminder
  deriving DecidableEq, Repr

/-- Modelled from the spec: a reference notification device.  With permission
it accepts every request, issues a fresh handle and keeps the reminder until
the handle is cancelled; without permission it rejects the request. -/
def device : Notifier Device where
  schedule := fun s c t =>
    if s.granted then
      .ok ("notif-" ++ toString s.issued,
        { s with issued := s.issued + 1,
                 active := s.active ++ [{ id := "notif-" ++ toString s.issued, content := c, trigger := t }] })
    else .error "Permission denied"
  cancel := fun s id => { s with active := s.active.filter (fun r => r.id != id) }

/-- A device with permission and nothing scheduled. -/
def freshDevice : Device := { granted := true, issued := 0, active := [] }

/-! ## Application state and handlers -/

/-- The state of `App`: the four `useState` cells and the state of the
notification collaborator. -/
structure App (σ : Type) where
  meds : List Medication
  logs : List DoseLog
  name : String
  timesInput : String
  notif : σ

/-- The state at mount. -/
def initialApp {σ : Type} (s : σ) : App σ :=
  { meds := [], logs := [], name := "", timesInput := "08:00, 20:00", notif := s }

/-- An `Alert.alert(title, message)` call. -/
structure Alert where
  title : String
  message : String
  deriving DecidableEq, Repr

/-- The `parseTimes` helper: split on commas, trim, drop empty tokens, and put a `0` in
front of every token of length 4. -/
def parseTimes (s : String) : List String :=
  (((jsSplit s ',').map jsTrim).filter (fun t => decide (t ≠ ""))).map
    (fun t => if utf16Length t = 4 then "0" ++ t else t)

/-- The destructuring `[hour, minute] = hhmm.split(":").map(x => parseInt(x, 10))`. -/
def hourMinute (hhmm : String) : JsNum × JsNum :=
  let parts := (jsSplit hhmm ':').map parseInt10
  (parts.getD 0 .undefined, parts.getD 1 .undefined)

/-- The guard of `scheduleDaily`:
`Number.isNaN(hour) || Number.isNaN(minute) || hour > 23 || minute > 59`. -/
def rejectsTime (hhmm : String) : Bool :=
  (hourMinute hhmm).1.isNaN || (hourMinute hhmm).2.isNaN ||
    (hourMinute hhmm).1.gt 23 || (hourMinute hhmm).2.gt 59

/-- The `scheduleDaily` helper: throws `Invalid time: hhmm` when the guard fires, otherwise
asks the collaborator for a repeating trigger and returns its handle.  The
second component is the collaborator state after the call. -/
def scheduleDaily {σ : Type} (N : Notifier σ) (title hhmm : String) (s : σ) :
    Except String String × σ :=
  if rejectsTime hhmm then (.error ("Invalid time: " ++ hhmm), s)
  else
    match N.schedule s
        { title := "Time for " ++ title, body := "Tap to log your dose.", sound := true }
        { hour := (hourMinute hhmm).1, minute := (hourMinute hhmm).2, repeats := true } with
    | .ok (id, s2) => (.ok id, s2)
    | .error e => (.error e, s)

/-- The assignment `obj[k] = v` on an object used as a string map. -/
def setKey (k v : String) : List (String × String) → List (String × String)
  | [] => [(k, v)]
  | (k2, v2) :: rest => if k2 = k then (k, v) :: rest else (k2, v2) :: setKey k v rest

/-- The loop `for (const t of times) notifIds[t] = await scheduleDaily(name.trim(), t)`;
an exception leaves the loop with the collaborator state reached so far. -/
def scheduleLoop {σ : Type} (N : Notifier σ) (title : String) :
    List String → List (String × String) → σ → Except String (List (String × String)) × σ
  | [], ids, s => (.ok ids, s)
  | t :: ts, ids, s =>
    match scheduleDaily N title t s with
    | (.ok id, s2) => scheduleLoop N title ts (setKey t id ids) s2
    | (.error e, s2) => (.error e, s2)

/-- The `addMedication` handler; `now` is `Date.now()`.  Returns the new state and the
alert that is shown. -/
def addMedication {σ : Type} (N : Notifier σ) (now : Nat) (st : App σ) : App σ × Alert :=
  let times := parseTimes st.timesInput
  if jsTrim st.name = "" ∨ times.length = 0 then
    (st, { title := "Missing info",
           message := "Enter a name and at least one time (e.g., 08:00)." })
  else
    match scheduleLoop N (jsTrim st.name) times [] st.notif with
    | (.ok notifIds, s2) =>
      let med : Medication :=
        { id := toString now, name := jsTrim st.name, times := times, notifIds := some notifIds }
      ({ st with meds := st.meds ++ [med], name := "", timesInput := "08:00, 20:00", notif := s2 },
       { title := "Scheduled",
         message := "Daily reminders set for " ++ st.name ++ " at " ++ jsJoin ", " times ++ "." })
    | (.error e, s2) => ({ st with notif := s2 }, { title := "Schedule failed", message := e })

/-- The loop of `removeMedication`: for every time of the record, look the id
up (`med.notifIds?.[t]`) and cancel it when it is truthy; a failing cancel is
swallowed. -/
def cancelLoop {σ : Type} (N : Notifier σ) (notifIds : Option (List (String × String))) :
    List String → σ → σ
  | [], s => s
  | t :: ts, s =>
    match notifIds.bind (fun o => List.lookup t o) with
    | some id => if id ≠ "" then cancelLoop N notifIds ts (N.cancel s id) else cancelLoop N notifIds ts s
    | none => cancelLoop N notifIds ts s

/-- The `removeMedication` handler: the first record with the id has its
reminders cancelled, and every record with the id is filtered out. -/
def removeMedication {σ : Type} (N : Notifier σ) (medId : String) (st : App σ) : App σ :=
  match st.meds.find? (fun m => m.id == medId) with
  | none => st
  | some med =>
    { st with notif := cancelLoop N med.notifIds med.times st.notif,
              meds := st.meds.filter (fun m => m.id != medId) }

/-- The handles returned by the successive `scheduleDaily` calls of the loop,
in call order. -/
def returnedHandles {σ : Type} (N : Notifier σ) (title : String) : List String → σ → List String
  | [], _ => []
  | t :: ts, s =>
    match scheduleDaily N title t s with
    | (.ok id, s2) => id :: returnedHandles N title ts s2
    | (.error _, _) => []

/-- A zero-padded 24-hour `HH:MM` string. -/
def isHHMM (t : String) : Bool :=
  match t.data with
  | [h1, h2, ':', m1, m2] =>
    h1.isDigit && h2.isDigit && m1.isDigit && m2.isDigit &&
      decide (digitsValue [h1, h2] ≤ 23) && decide (digitsValue [m1, m2] ≤ 59)
  | _ => false

/-! ## Persistence -/

/-- The key `STORAGE_KEYS.MEDS`. -/
def STORAGE_KEYS_MEDS : String := "@meds_v1"

/-- The key `STORAGE_KEYS.LOGS`. -/
def STORAGE_KEYS_LOGS : String := "@logs_v1"

/-- The store after `setItem(key, value)`; reading the store at a key is
`getItem(key)`, absent keys read as `none`. -/
def setItem (store : String → Option String) (key value : String) : String → Option String :=
  fun k => if k = key then some value else store k

/-- The expression `v || "[]"` on the result of `getItem`: a missing key and
an empty string both give `"[]"`. -/
def orEmptyArray : Option String → String
  | none => "[]"
  | some v => if v = "" then "[]" else v

/-- What `JSON.parse` returns when it does not throw: an array of records, or
a value that is not an array (`null`, a number, a string, an object). -/
inductive Parsed (α : Type) where
  | array (items : List α)
  | other
  deriving DecidableEq, Repr

/-- The call `JSON.parse(v)`: the text `[]` is the empty array; every other
text is read by `decode`, an error standing for a thrown `SyntaxError`. -/
def jsonParse {α : Type} (decode : String → Except String (Parsed α)) (v : String) :
    Except String (Parsed α) :=
  if v = "[]" then .ok (.array []) else decode v

/-- The load effect at mount, together with the two save effects that run in
the same commit.  The store serves requests in the order they are issued:

1. the load effect issues `getItem(MEDS)` and suspends at its first `await`;
2. the save effects run with the mount state `meds = []`, `logs = []` and
   issue `setItem(MEDS, "[]")` and `setItem(LOGS, "[]")`;
3. the load effect resumes, parses the medications value, and only then
   issues `getItem(LOGS)`, which is served by the store left by step 2.

Both values are parsed inside one `try`; the `catch` only logs, so a thrown
`SyntaxError` leaves the mount state.  `setMeds(m)` and `setLogs(l)` run after
both parses; when either value is not an array the next render throws
(`meds.flatMap`, `logs.filter`), which is the result `none`. -/
def load {σ : Type} (decodeMeds : String → Except String (Parsed Medication))
    (decodeLogs : String → Except String (Parsed DoseLog)) (store : String → Option String)
    (s : σ) : Option (App σ) :=
  let medsRaw := store STORAGE_KEYS_MEDS
  let store1 := setItem store STORAGE_KEYS_MEDS "[]"
  let store2 := setItem store1 STORAGE_KEYS_LOGS "[]"
  match jsonParse decodeMeds (orEmptyArray medsRaw) with
  | .error _ => some (initialApp s)
  | .ok m =>
    match jsonParse decodeLogs (orEmptyArray (store2 STORAGE_KEYS_LOGS)) with
    | .error _ => some (initialApp s)
    | .ok l =>
      match m, l with
      | .array ms, .array ls => some { initialApp s with meds := ms, logs := ls }
      | _, _ => none

/-- An add request whose second time is out of range. -/
def lateFailureRequest : App Device :=
  { initialApp freshDevice with name := "Aspirin", timesInput := "08:00, 25:00" }

/-- An add request with a time written without padding. -/
def shortTimeRequest : App Device :=
  { initialApp freshDevice with name := "Aspirin", timesInput := "8:5" }

/-- An add request that names the same time twice. -/
def duplicateTimeRequest : App Device :=
  { initialApp freshDevice with name := "Aspirin", timesInput := "08:00, 08:00" }

/-- The JSON text of `exampleMeds`, as `JSON.stringify` writes it. -/
def exampleMedsJson : String :=
  "[\x7b\"id\":\"1700000000000\",\"name\":\"Amoxicillin\",\"times\":[\"08:00\"]," ++
  "\"notifIds\":\x7b\"08:00\":\"n1\"\x7d\x7d," ++
  "\x7b\"id\":\"1700000000001\",\"name\":\"Ibuprofen\",\"times\":[\"09:00\",\"21:00\"]," ++
  "\"notifIds\":\x7b\"09:00\":\"n2\",\"21:00\":\"n3\"\x7d\x7d]"

/-- The JSON text of the one-entry log `[exampleEntry]`. -/
def exampleEntryJson : String :=
  "[\x7b\"date\":\"2024-02-29\",\"medId\":\"1700000000000\",\"time\":\"08:00\"," ++
  "\"takenAtISO\":\"2024-02-29T08:01:00.000Z\"\x7d]"

/-- A stand-in for the reader of medication texts: it reads the text
`exampleMedsJson` and the text `null`, and throws on anything else. -/
def sampleDecodeMeds (v : String) : Except String (Parsed Medication) :=
  if v = exampleMedsJson then .ok (.array exampleMeds)
  else if v = "null" then .ok .other
  else .error "SyntaxError"

/-- A stand-in for the reader of dose log texts: it reads the text
`exampleEntryJson` and the text `null`, and throws on anything else. -/
def sampleDecodeLogs (v : String) : Except String (Parsed DoseLog) :=
  if v = exampleEntryJson then .ok (.array [exampleEntry])
  else if v = "null" then .ok .other
  else .error "SyntaxError"

/-- A store with a medication list cut off in the middle of its first record
and a valid one-entry dose log. -/
def corruptMedsStore (key : String) : Option String :=
  if key = "@meds_v1" then some "[\x7b\"id\":\"1700000000000\",\"name\":\"Amox"
  else if key = "@logs_v1" then some exampleEntryJson
  else none

/-- A store with a valid medication list and a dose log cut off in the middle
of its first entry. -/
def corruptLogsStore (key : String) : Option String :=
  if key = "@meds_v1" then some exampleMedsJson
  else if key = "@logs_v1" then some "[\x7b\"date\":\"2024-02-29\",\"medId\":\"17000"
  else none

/-- A store with valid values under both keys. -/
def validStore (key : String) : Option String :=
  if key = "@meds_v1" then some exampleMedsJson
  else if key = "@logs_v1" then some exampleEntryJson
  else none

/-- A store whose medications value is the JSON text `null`. -/
def nullMedsStore (key : String) : Option String :=
  if key = "@meds_v1" then some "null" else none

/-! ## Lemmas: adherence -/

theorem foldl_add_const (c : Nat) (days : List String) (init : Nat) :
    days.foldl (fun acc _ => acc + c) init = init + days.length * c := by
  induction days generalizing init with
  | nil => simp
  | cons d ds ih => simp [ih, Nat.succ_mul]; omega

theorem foldl_times_length (meds : List Medication) (init : Nat) :
    meds.foldl (fun a m => a + m.times.length) init
      = init + (meds.map (fun m => m.times.length)).sum := by
  induction meds generalizing init with
  | nil => simp
  | cons m ms ih => simp [ih]; omega

theorem scheduled_eq (daysAgo : Nat → String) (meds : List Medication) (logs : List DoseLog) :
    (adherence daysAgo meds logs).scheduled = 7 * (meds.map (fun m => m.times.length)).sum := by
  simp [adherence, foldl_add_const, foldl_times_length]

theorem range_seven_map (daysAgo : Nat → String) :
    (List.range 7).map daysAgo = windowDates daysAgo := by
  rfl

theorem taken_eq (daysAgo : Nat → String) (meds : List Medication) (logs : List DoseLog) :
    (adherence daysAgo meds logs).taken
      = (logs.filter (fun l => decide (l.date ∈ windowDates daysAgo))).length := by
  have h : (fun l : DoseLog => ((List.range 7).map daysAgo).contains l.date)
      = (fun l : DoseLog => decide (l.date ∈ windowDates daysAgo)) := by
    funext l
    rw [range_seven_map, Bool.eq_iff_iff]
    simp
  simp only [adherence, h]

theorem mathRound_bounds (q : ℚ) : q - 1 / 2 < (mathRound q : ℚ) ∧ (mathRound q : ℚ) ≤ q + 1 / 2 := by
  unfold mathRound
  constructor
  · have := Int.lt_floor_add_one (q + 1 / 2)
    linarith
  · exact Int.floor_le (q + 1 / 2)

theorem pct_eq (daysAgo : Nat → String) (meds : List Medication) (logs : List DoseLog) :
    (adherence daysAgo meds logs).pct
      = if (adherence daysAgo meds logs).scheduled = 0 then 0
        else mathRound ((100 * ((adherence daysAgo meds logs).taken : ℚ))
              / ((adherence daysAgo meds logs).scheduled : ℚ)) := by
  simp only [adherence]

/-! ## Claims: adherence -/

/-- C1: for every medication list, dose log and clock, the adherence computation
returns `scheduled = 7 * (sum of the lengths of the times lists)`, `taken =` the
number of log entries dated on one of the seven window dates, and `pct = 0`
when `scheduled = 0`, otherwise the integer nearest to `100 * taken / scheduled`
with a half rounded up; in particular `scheduled = 21` and `taken = 5` give
`pct = 24`. -/
theorem adherence_spec (daysAgo : Nat → String) (meds : List Medication) (logs : List DoseLog) :
    (adherence daysAgo meds logs).scheduled = 7 * (meds.map (fun m => m.times.length)).sum ∧
    (adherence daysAgo meds logs).taken
      = (logs.filter (fun l => decide (l.date ∈ windowDates daysAgo))).length ∧
    (if (adherence daysAgo meds logs).scheduled = 0 then (adherence daysAgo meds logs).pct = 0
     else
      (100 * ((adherence daysAgo meds logs).taken : ℚ) / ((adherence daysAgo meds logs).scheduled : ℚ)
          - 1 / 2 < ((adherence daysAgo meds logs).pct : ℚ) ∧
       ((adherence daysAgo meds logs).pct : ℚ)
          ≤ 100 * ((adherence daysAgo meds logs).taken : ℚ)
              / ((adherence daysAgo meds logs).scheduled : ℚ) + 1 / 2)) ∧
    ((adherence daysAgo meds logs).scheduled = 21 → (adherence daysAgo meds logs).taken = 5 →
      (adherence daysAgo meds logs).pct = 24) := by
  have h3 : (if (adherence daysAgo meds logs).scheduled = 0 then (adherence daysAgo meds logs).pct = 0
     else
      (100 * ((adherence daysAgo meds logs).taken : ℚ) / ((adherence daysAgo meds logs).scheduled : ℚ)
          - 1 / 2 < ((adherence daysAgo meds logs).pct : ℚ) ∧
       ((adherence daysAgo meds logs).pct : ℚ)
          ≤ 100 * ((adherence daysAgo meds logs).taken : ℚ)
              / ((adherence daysAgo meds logs).scheduled : ℚ) + 1 / 2)) := by
    rw [pct_eq]
    split
    · rfl
    · exact mathRound_bounds _
  refine ⟨scheduled_eq daysAgo meds logs, taken_eq daysAgo meds logs, h3, ?_⟩
  intro hs ht
  rw [hs, ht] at h3
  simp only [show (21 : Nat) ≠ 0 by decide, if_false] at h3
  obtain ⟨lo, hi⟩ := h3
  have lo2 : ((23 : Int) : ℚ) < ((adherence daysAgo meds logs).pct : ℚ) := by
    push_cast at lo ⊢
    linarith
  have hi2 : ((adherence daysAgo meds logs).pct : ℚ) < ((25 : Int) : ℚ) := by
    push_cast at hi ⊢
    linarith
  have lo3 := Int.cast_lt.mp lo2
  have hi3 := Int.cast_lt.mp hi2
  omega

/-- C1, the worked example: two medications with one and two times and a log
with five entries inside the window (and one outside) give `scheduled = 21`,
`taken = 5`, `pct = 24`. -/
theorem adherence_spec_witness :
    (adherence (clockAt 19782) exampleMeds exampleLogs).scheduled = 21 ∧
    (adherence (clockAt 19782) exampleMeds exampleLogs).taken = 5 ∧
    (adherence (clockAt 19782) exampleMeds exampleLogs).pct = 24 := by
  have h := adherence_spec (clockAt 19782) exampleMeds exampleLogs
  have hs : (adherence (clockAt 19782) exampleMeds exampleLogs).scheduled = 21 := by
    rw [h.1]; decide
  have ht : (adherence (clockAt 19782) exampleMeds exampleLogs).taken = 5 := by
    rw [h.2.1]; decide
  exact ⟨hs, ht, h.2.2.2 hs ht⟩

/-- C2, as stated, fails: with no medication and one log entry dated today the
computation returns `taken = 1`, not `0`. -/
theorem adherence_empty_meds_taken_counterexample :
    (adherence (clockAt 19782) [] [exampleEntry]).taken = 1 ∧
    ¬ ((adherence (clockAt 19782) [] [exampleEntry]).pct = 0 ∧
       (adherence (clockAt 19782) [] [exampleEntry]).scheduled = 0 ∧
       (adherence (clockAt 19782) [] [exampleEntry]).taken = 0) := by
  have h : (adherence (clockAt 19782) [] [exampleEntry]).taken = 1 := by decide
  refine ⟨h, ?_⟩
  rintro ⟨-, -, h0⟩
  rw [h] at h0
  exact absurd h0 (by decide)

/-- C2, amended: with an empty medication list the computation returns
`pct = 0` and `scheduled = 0` for every dose log and clock, and `taken` is the
number of log entries dated inside the window (the medication list plays no
part in it). -/
theorem adherence_empty_meds (daysAgo : Nat → String) (logs : List DoseLog) :
    (adherence daysAgo [] logs).pct = 0 ∧
    (adherence daysAgo [] logs).scheduled = 0 ∧
    (adherence daysAgo [] logs).taken
      = (logs.filter (fun l => decide (l.date ∈ windowDates daysAgo))).length := by
  have hs : (adherence daysAgo [] logs).scheduled = 0 := by
    rw [scheduled_eq]; rfl
  refine ⟨?_, hs, taken_eq daysAgo [] logs⟩
  rw [pct_eq, if_pos hs]

/-! ## Lemmas: dose log -/

theorem isTaken_append (logs : List DoseLog) (e : DoseLog) (m t d : String) :
    isTaken (logs ++ [e]) m t d
      = (isTaken logs m t d || (e.medId == m && e.time == t && e.date == d)) := by
  simp [isTaken, List.any_append]

theorem isTaken_markTaken_self (today stamp : String) (logs : List DoseLog) (m t : String) :
    isTaken (markTaken today stamp logs m t) m t today = true := by
  unfold markTaken
  split
  · assumption
  · rw [isTaken_append]
    simp

theorem markTaken_of_taken (today stamp : String) (logs : List DoseLog) (m t : String)
    (h : isTaken logs m t today = true) : markTaken today stamp logs m t = logs := by
  simp [markTaken, h]

theorem markTakenMany_of_taken (today : String) (logs : List DoseLog) (m t : String)
    (stamps : List String) (h : isTaken logs m t today = true) :
    markTakenMany today logs m t stamps = logs := by
  induction stamps with
  | nil => rfl
  | cons s rest ih => rw [markTakenMany, markTaken_of_taken today s logs m t h, ih]

theorem markTakenMany_cons (today : String) (logs : List DoseLog) (m t stamp : String)
    (later : List String) :
    markTakenMany today logs m t (stamp :: later) = markTaken today stamp logs m t := by
  rw [markTakenMany]
  exact markTakenMany_of_taken today _ m t later (isTaken_markTaken_self today stamp logs m t)

theorem entriesFor_of_not_taken (logs : List DoseLog) (d m t : String)
    (h : isTaken logs m t d = false) : entriesFor logs d m t = 0 := by
  unfold entriesFor
  rw [List.countP_eq_zero]
  intro l hl
  unfold isTaken at h
  rw [List.any_eq_false] at h
  exact h l hl

theorem entriesFor_markTaken (today stamp : String) (logs : List DoseLog) (m t : String)
    (h : isTaken logs m t today = false) :
    entriesFor (markTaken today stamp logs m t) today m t = 1 := by
  have h0 := entriesFor_of_not_taken logs today m t h
  unfold entriesFor at h0 ⊢
  simp [markTaken, h, List.countP_append, h0]

theorem noDuplicateSlots_markTaken (today stamp : String) (logs : List DoseLog) (m t : String)
    (h : NoDuplicateSlots logs) : NoDuplicateSlots (markTaken today stamp logs m t) := by
  unfold markTaken
  split
  · exact h
  · rename_i hn
    unfold NoDuplicateSlots at h ⊢
    rw [List.pairwise_append]
    refine ⟨h, List.pairwise_singleton _ _, ?_⟩
    intro a ha b hb
    rw [List.mem_singleton] at hb
    subst hb
    rintro ⟨hd, hm, ht⟩
    apply hn
    unfold isTaken
    rw [List.any_eq_true]
    exact ⟨a, ha, by simp [hd, hm, ht]⟩

/-! ## Claims: dose log -/

/-- C3: `markTaken` is idempotent.  When the log has no entry for
`(today, medId, time)`, one or more calls leave exactly one entry for that
triple; the calls after the first change nothing (the result of `N ≥ 1` calls
is the result of the first, and one more call returns the same log); and a log
without two entries for one `(date, medId, time)` triple stays so after a
call. -/
theorem markTaken_idempotent (today : String) (logs : List DoseLog) (medId time stamp : String)
    (later : List String) :
    (isTaken logs medId time today = false →
      entriesFor (markTakenMany today logs medId time (stamp :: later)) today medId time = 1) ∧
    markTakenMany today logs medId time (stamp :: later)
      = markTaken today stamp logs medId time ∧
    (∀ extra : String,
      markTaken today extra (markTaken today stamp logs medId time) medId time
        = markTaken today stamp logs medId time) ∧
    (NoDuplicateSlots logs →
      NoDuplicateSlots (markTakenMany today logs medId time (stamp :: later))) := by
  refine ⟨?_, markTakenMany_cons today logs medId time stamp later, ?_, ?_⟩
  · intro h
    rw [markTakenMany_cons]
    exact entriesFor_markTaken today stamp logs medId time h
  · intro extra
    exact markTaken_of_taken today extra _ medId time
      (isTaken_markTaken_self today stamp logs medId time)
  · intro h
    rw [markTakenMany_cons]
    exact noDuplicateSlots_markTaken today stamp logs medId time h

/-- C3 at a concrete log: three calls for a slot that is not yet logged. -/
theorem markTaken_idempotent_witness :
    isTaken exampleLogs "1700000000001" "21:00" "2024-02-29" = false ∧
    NoDuplicateSlots exampleLogs ∧
    entriesFor (markTakenMany "2024-02-29" exampleLogs "1700000000001" "21:00" ["x", "y", "z"])
      "2024-02-29" "1700000000001" "21:00" = 1 ∧
    NoDuplicateSlots
      (markTakenMany "2024-02-29" exampleLogs "1700000000001" "21:00" ["x", "y", "z"]) := by
  have hnt : isTaken exampleLogs "1700000000001" "21:00" "2024-02-29" = false := by decide
  have hnd : NoDuplicateSlots exampleLogs := by
    unfold NoDuplicateSlots exampleLogs
    decide
  have h := markTaken_idempotent "2024-02-29" exampleLogs "1700000000001" "21:00" "x" ["y", "z"]
  exact ⟨hnt, hnd, h.1 hnt, h.2.2.2 hnd⟩

/-- C4: after `markTaken (m, t)` on date `d` the slot `(m, t, d)` is taken, every
other triple answers `isTaken` as before (so it is not taken when the log was
empty), and the log is the old log followed by at most one new entry. -/
theorem markTaken_isTaken (today stamp : String) (logs : List DoseLog) (m t : String) :
    isTaken (markTaken today stamp logs m t) m t today = true ∧
    (∀ m2 t2 d2 : String, (m2, t2, d2) ≠ (m, t, today) →
      isTaken (markTaken today stamp logs m t) m2 t2 d2 = isTaken logs m2 t2 d2) ∧
    (∀ m2 t2 d2 : String, (m2, t2, d2) ≠ (m, t, today) →
      isTaken (markTaken today stamp [] m t) m2 t2 d2 = false) ∧
    (∃ added : List DoseLog, added.length ≤ 1 ∧ markTaken today stamp logs m t = logs ++ added) := by
  have frame : ∀ (L : List DoseLog) (m2 t2 d2 : String), (m2, t2, d2) ≠ (m, t, today) →
      isTaken (markTaken today stamp L m t) m2 t2 d2 = isTaken L m2 t2 d2 := by
    intro L m2 t2 d2 hne
    unfold markTaken
    split
    · rfl
    · rw [isTaken_append]
      have : ((m == m2) && (t == t2) && (today == d2)) = false := by
        rw [Bool.eq_false_iff]
        intro hh
        simp only [Bool.and_eq_true, beq_iff_eq] at hh
        apply hne
        rw [hh.1.1, hh.1.2, hh.2]
      simp [this]
  refine ⟨isTaken_markTaken_self today stamp logs m t, frame logs, ?_, ?_⟩
  · intro m2 t2 d2 hne
    rw [frame [] m2 t2 d2 hne]
    rfl
  · unfold markTaken
    split
    · exact ⟨[], by simp, by simp⟩
    · exact ⟨[_], by simp, rfl⟩

/-- C4 at a concrete log: marking one slot leaves another slot untouched. -/
theorem markTaken_isTaken_witness :
    isTaken (markTaken "2024-02-29" "x" exampleLogs "1700000000001" "21:00")
      "1700000000001" "21:00" "2024-02-29" = true ∧
    isTaken (markTaken "2024-02-29" "x" exampleLogs "1700000000001" "21:00")
      "1700000000001" "09:00" "2024-02-29" = false := by
  have h := markTaken_isTaken "2024-02-29" "x" exampleLogs "1700000000001" "21:00"
  refine ⟨h.1, ?_⟩
  rw [h.2.1 "1700000000001" "09:00" "2024-02-29" (by decide)]
  decide


/-! ## Lemmas: scheduling -/

theorem scheduleDaily_of_rejects {σ : Type} (N : Notifier σ) (title hhmm : String) (s : σ)
    (h : rejectsTime hhmm = true) :
    scheduleDaily N title hhmm s = (.error ("Invalid time: " ++ hhmm), s) := by
  simp [scheduleDaily, h]

theorem scheduleDaily_of_accepts {σ : Type} (N : Notifier σ) (title hhmm : String) (s : σ)
    (h : rejectsTime hhmm = false) :
    scheduleDaily N title hhmm s =
      match N.schedule s
          { title := "Time for " ++ title, body := "Tap to log your dose.", sound := true }
          { hour := (hourMinute hhmm).1, minute := (hourMinute hhmm).2, repeats := true } with
      | .ok (id, s2) => (.ok id, s2)
      | .error e => (.error e, s) := by
  simp [scheduleDaily, h]

theorem scheduleDaily_error_state {σ : Type} (N : Notifier σ) (title hhmm : String) (s : σ)
    (e : String) (h : (scheduleDaily N title hhmm s).1 = .error e) :
    scheduleDaily N title hhmm s = (.error e, s) := by
  by_cases hr : rejectsTime hhmm = true
  · rw [scheduleDaily_of_rejects N title hhmm s hr] at h ⊢
    simp only [Except.error.injEq] at h
    rw [h]
  · have hr2 : rejectsTime hhmm = false := by simpa using hr
    rw [scheduleDaily_of_accepts N title hhmm s hr2] at h ⊢
    revert h
    generalize N.schedule s
      { title := "Time for " ++ title, body := "Tap to log your dose.", sound := true }
      { hour := (hourMinute hhmm).1, minute := (hourMinute hhmm).2, repeats := true } = r
    intro h
    rcases r with e2 | ⟨id, s2⟩
    · simp only [Except.error.injEq] at h
      rw [h]
    · simp at h

theorem scheduleLoop_append {σ : Type} (N : Notifier σ) (title : String)
    (pre rest : List String) (ids ids2 : List (String × String)) (s s2 : σ)
    (h : scheduleLoop N title pre ids s = (.ok ids2, s2)) :
    scheduleLoop N title (pre ++ rest) ids s = scheduleLoop N title rest ids2 s2 := by
  induction pre generalizing ids s with
  | nil =>
    simp only [scheduleLoop, Prod.mk.injEq, Except.ok.injEq] at h
    rw [List.nil_append, h.1, h.2]
  | cons t ts ih =>
    rw [List.cons_append]
    rw [scheduleLoop] at h ⊢
    split at h
    · exact ih _ _ h
    · simp at h

theorem scheduleLoop_invalid {σ : Type} (N : Notifier σ) (title : String)
    (times : List String) (ids : List (String × String)) (s : σ) (t : String)
    (ht : t ∈ times) (hr : rejectsTime t = true) :
    ∃ e s2, scheduleLoop N title times ids s = (.error e, s2) := by
  induction times generalizing ids s with
  | nil => simp at ht
  | cons t1 ts ih =>
    rw [scheduleLoop]
    split
    · rename_i id s3 heq
      rcases List.mem_cons.mp ht with h1 | h1
      · subst h1
        rw [scheduleDaily_of_rejects N title t s hr] at heq
        simp at heq
      · exact ih _ _ h1
    · rename_i e s3 heq
      exact ⟨e, s3, rfl⟩

theorem lookup_cons_eq (k v t : String) (es : List (String × String)) :
    List.lookup t ((k, v) :: es) = if t = k then some v else List.lookup t es := by
  by_cases h : t = k
  · subst h
    simp [List.lookup]
  · have hb : (t == k) = false := by simpa using h
    simp [List.lookup, hb, h]

theorem lookup_setKey (k v t : String) (ids : List (String × String)) :
    List.lookup t (setKey k v ids) = if t = k then some v else List.lookup t ids := by
  induction ids with
  | nil => rw [setKey, lookup_cons_eq]
  | cons p rest ih =>
    obtain ⟨k2, v2⟩ := p
    rw [setKey]
    by_cases h2 : k2 = k
    · subst h2
      rw [if_pos rfl, lookup_cons_eq, lookup_cons_eq]
      split <;> rfl
    · rw [if_neg h2, lookup_cons_eq, lookup_cons_eq, ih]
      by_cases h3 : t = k2
      · have : t ≠ k := fun hh => h2 (h3.symm.trans hh)
        rw [if_pos h3, if_neg this, if_pos h3]
      · rw [if_neg h3, if_neg h3]

theorem scheduleLoop_handles {σ : Type} (N : Notifier σ) (title : String)
    (times : List String) (ids0 ids : List (String × String)) (s s2 : σ)
    (h : scheduleLoop N title times ids0 s = (.ok ids, s2)) (t : String) :
    (t ∈ times → ∃ hd, hd ∈ returnedHandles N title times s ∧ List.lookup t ids = some hd) ∧
    (t ∉ times → List.lookup t ids = List.lookup t ids0) := by
  induction times generalizing ids0 s with
  | nil =>
    simp only [scheduleLoop, Prod.mk.injEq, Except.ok.injEq] at h
    simp [h.1]
  | cons t1 ts ih =>
    rw [scheduleLoop] at h
    split at h
    · rename_i id s3 heq
      have IH := ih _ _ h
      have hret : returnedHandles N title (t1 :: ts) s = id :: returnedHandles N title ts s3 := by
        rw [returnedHandles, heq]
      rw [hret]
      by_cases hmem : t ∈ ts
      · obtain ⟨hd, hhd, hl⟩ := IH.1 hmem
        exact ⟨fun _ => ⟨hd, List.mem_cons_of_mem _ hhd, hl⟩,
          fun hn => absurd (List.mem_cons_of_mem _ hmem) hn⟩
      · have hl := IH.2 hmem
        rw [lookup_setKey] at hl
        constructor
        · intro hin
          rcases List.mem_cons.mp hin with h1 | h1
          · rw [if_pos h1] at hl
            exact ⟨id, List.mem_cons_self _ _, hl⟩
          · exact absurd h1 hmem
        · intro hn
          have hne : t ≠ t1 := fun hh => hn (hh ▸ List.mem_cons_self _ _)
          rw [if_neg hne] at hl
          exact hl
    · simp at h

theorem returnedHandles_length {σ : Type} (N : Notifier σ) (title : String)
    (times : List String) (ids0 ids : List (String × String)) (s s2 : σ)
    (h : scheduleLoop N title times ids0 s = (.ok ids, s2)) :
    (returnedHandles N title times s).length = times.length := by
  induction times generalizing ids0 s with
  | nil => rfl
  | cons t1 ts ih =>
    rw [scheduleLoop] at h
    split at h
    · rename_i id s3 heq
      rw [returnedHandles, heq]
      simp [ih _ _ h]
    · simp at h

/-! ## Claims: scheduling and adding -/

theorem addMedication_unfold {σ : Type} (N : Notifier σ) (now : Nat) (st : App σ)
    (hname : jsTrim st.name ≠ "") (hne : parseTimes st.timesInput ≠ []) :
    addMedication N now st =
      match scheduleLoop N (jsTrim st.name) (parseTimes st.timesInput) [] st.notif with
      | (.ok notifIds, s2) =>
        ({ st with
            meds := st.meds ++ [{ id := toString now, name := jsTrim st.name,
                                  times := parseTimes st.timesInput, notifIds := some notifIds }],
            name := "", timesInput := "08:00, 20:00", notif := s2 },
         { title := "Scheduled",
           message := "Daily reminders set for " ++ st.name ++ " at "
             ++ jsJoin ", " (parseTimes st.timesInput) ++ "." })
      | (.error e, s2) => ({ st with notif := s2 }, { title := "Schedule failed", message := e }) := by
  have hlen : ¬ (parseTimes st.timesInput).length = 0 := by
    rw [List.length_eq_zero]; exact hne
  unfold addMedication
  simp only [hname, hlen, or_self, if_false]

theorem addMedication_missing {σ : Type} (N : Notifier σ) (now : Nat) (st : App σ)
    (h : jsTrim st.name = "" ∨ parseTimes st.timesInput = []) :
    addMedication N now st =
      (st, { title := "Missing info",
             message := "Enter a name and at least one time (e.g., 08:00)." }) := by
  have h2 : jsTrim st.name = "" ∨ (parseTimes st.timesInput).length = 0 := by
    rw [List.length_eq_zero]; exact h
  unfold addMedication
  simp only [h2, if_true]

/-- C5, as stated, fails: when the second of two times is out of range the add
fails and the medication list is unchanged, but the reminder scheduled for the
first time stays active on the device. -/
theorem addMedication_failure_counterexample :
    (addMedication device 1700000000000 lateFailureRequest).2
      = { title := "Schedule failed", message := "Invalid time: 25:00" } ∧
    (addMedication device 1700000000000 lateFailureRequest).1.meds = lateFailureRequest.meds ∧
    (addMedication device 1700000000000 lateFailureRequest).1.notif.active
      = [{ id := "notif-0",
           content := { title := "Time for Aspirin", body := "Tap to log your dose.", sound := true },
           trigger := { hour := .num 8, minute := .num 0, repeats := true } }] ∧
    ¬ ((addMedication device 1700000000000 lateFailureRequest).1.notif.active
        = lateFailureRequest.notif.active) := by
  decide

theorem rejectsTime_iff (t : String) :
    rejectsTime t = true ↔
      ((hourMinute t).1 = .nan ∨ (hourMinute t).2 = .nan ∨
        (∃ n, (hourMinute t).1 = .num n ∧ 23 < n) ∨ (∃ n, (hourMinute t).2 = .num n ∧ 59 < n)) := by
  unfold rejectsTime
  cases h1 : (hourMinute t).1 <;> cases h2 : (hourMinute t).2 <;>
    simp [JsNum.isNaN, JsNum.gt]

/-- C5, amended.  The times of an add are the strings `parseTimes` hands to
`scheduleDaily` (the comma-separated tokens, trimmed, empty ones dropped, a
token of length 4 prefixed with `0`).  An add whose name trims to empty
schedules nothing and changes nothing.  Otherwise, when the times before `t`
are scheduled successfully and the call for `t` fails (rejected by the guard
or by the collaborator), `addMedication` shows `Schedule failed` with that
error, leaves the medication list and the form untouched, and leaves the
collaborator in the state reached after scheduling the earlier times (nothing
is cancelled, so the state is the initial one when `t` is the first time);
and any time whose hour or minute is read as `NaN`, whose hour is above 23 or
whose minute is above 59 makes the add fail with the medication list
unchanged. -/
theorem addMedication_failure {σ : Type} (N : Notifier σ) (now : Nat) (st : App σ) :
    (jsTrim st.name = "" → (addMedication N now st).1.meds = st.meds ∧
      (addMedication N now st).1.notif = st.notif ∧
      (addMedication N now st).2.title = "Missing info") ∧
    (jsTrim st.name ≠ "" →
      (∀ (pre post : List String) (t : String) (ids : List (String × String)) (s2 : σ) (e : String),
        parseTimes st.timesInput = pre ++ t :: post →
        scheduleLoop N (jsTrim st.name) pre [] st.notif = (.ok ids, s2) →
        (scheduleDaily N (jsTrim st.name) t s2).1 = .error e →
        addMedication N now st
          = ({ st with notif := s2 }, { title := "Schedule failed", message := e })) ∧
      (∀ t, t ∈ parseTimes st.timesInput → rejectsTime t = true →
        (addMedication N now st).1.meds = st.meds ∧
        (addMedication N now st).2.title = "Schedule failed") ∧
      (∀ t, t ∈ parseTimes st.timesInput →
        ((hourMinute t).1 = .nan ∨ (hourMinute t).2 = .nan ∨
          (∃ n, (hourMinute t).1 = .num n ∧ 23 < n) ∨
          (∃ n, (hourMinute t).2 = .num n ∧ 59 < n)) →
        (addMedication N now st).1.meds = st.meds ∧
        (addMedication N now st).2.title = "Schedule failed")) := by
  constructor
  · intro hname
    rw [addMedication_missing N now st (Or.inl hname)]
    exact ⟨rfl, rfl, rfl⟩
  · intro hname
    have hrej : ∀ t, t ∈ parseTimes st.timesInput → rejectsTime t = true →
        (addMedication N now st).1.meds = st.meds ∧
        (addMedication N now st).2.title = "Schedule failed" := by
      intro t ht hr
      have hne : parseTimes st.timesInput ≠ [] := List.ne_nil_of_mem ht
      obtain ⟨e, s2, hl⟩ := scheduleLoop_invalid N (jsTrim st.name) _ [] st.notif t ht hr
      rw [addMedication_unfold N now st hname hne, hl]
      exact ⟨rfl, rfl⟩
    refine ⟨?_, hrej, ?_⟩
    · intro pre post t ids s2 e htimes hpre hfail
      have hne : parseTimes st.timesInput ≠ [] := by
        rw [htimes]; simp
      rw [addMedication_unfold N now st hname hne, htimes,
        scheduleLoop_append N _ pre (t :: post) [] ids st.notif s2 hpre, scheduleLoop,
        scheduleDaily_error_state N _ t s2 e hfail]
    · intro t ht hcond
      exact hrej t ht ((rejectsTime_iff t).mpr hcond)

/-- C5 at a concrete request: the second time is rejected after the first was
scheduled. -/
theorem addMedication_failure_witness :
    jsTrim lateFailureRequest.name ≠ "" ∧
    parseTimes lateFailureRequest.timesInput = ["08:00"] ++ "25:00" :: [] ∧
    (∃ n, (hourMinute "25:00").1 = .num n ∧ 23 < n) ∧
    (addMedication device 1700000000000 lateFailureRequest).2
      = { title := "Schedule failed", message := "Invalid time: 25:00" } ∧
    (addMedication device 1700000000000 lateFailureRequest).1.meds = [] ∧
    (addMedication device 1700000000000 lateFailureRequest).2.title = "Schedule failed" := by
  have hname : jsTrim lateFailureRequest.name ≠ "" := by decide
  have htimes : parseTimes lateFailureRequest.timesInput = ["08:00"] ++ "25:00" :: [] := by decide
  have hhour : ∃ n, (hourMinute "25:00").1 = .num n ∧ 23 < n := ⟨25, by decide, by decide⟩
  have hmem : "25:00" ∈ parseTimes lateFailureRequest.timesInput := by
    rw [htimes]; simp
  have h := ((addMedication_failure device 1700000000000 lateFailureRequest).2 hname).1
    ["08:00"] [] "25:00" [("08:00", "notif-0")]
    { granted := true, issued := 1,
      active := [{ id := "notif-0",
                   content := { title := "Time for Aspirin", body := "Tap to log your dose.",
                                sound := true },
                   trigger := { hour := .num 8, minute := .num 0, repeats := true } }] }
    "Invalid time: 25:00" htimes (by rfl) (by rfl)
  have h3 := ((addMedication_failure device 1700000000000 lateFailureRequest).2 hname).2.2
    "25:00" hmem (Or.inr (Or.inr (Or.inl hhour)))
  refine ⟨hname, htimes, hhour, ?_, ?_, h3.2⟩
  · rw [h]
  · rw [h]
    rfl

/-- C6, the code at out-of-range inputs: for `-1:30` the guard of
`scheduleDaily` does not fire and a trigger with hour `-1` is scheduled, and for
`12` (no minute part) the minute is `undefined` and a trigger without a minute
is scheduled. -/
theorem scheduleDaily_out_of_range :
    hourMinute "-1:30" = (.num (-1), .num 30) ∧
    rejectsTime "-1:30" = false ∧
    scheduleDaily device "Aspirin" "-1:30" freshDevice
      = (.ok "notif-0",
         { granted := true, issued := 1,
           active := [{ id := "notif-0",
                        content := { title := "Time for Aspirin", body := "Tap to log your dose.",
                                     sound := true },
                        trigger := { hour := .num (-1), minute := .num 30, repeats := true } }] }) ∧
    hourMinute "12" = (.num 12, .undefined) ∧
    rejectsTime "12" = false ∧
    scheduleDaily device "Aspirin" "12" freshDevice
      = (.ok "notif-0",
         { granted := true, issued := 1,
           active := [{ id := "notif-0",
                        content := { title := "Time for Aspirin", body := "Tap to log your dose.",
                                     sound := true },
                        trigger := { hour := .num 12, minute := .undefined, repeats := true } }] }) := by
  refine ⟨by decide, by decide, by rfl, by decide, by decide, by rfl⟩

/-- C7, the code at times written without padding: the token `8:5` has
length 3 and passes the guard of `scheduleDaily`, so the add succeeds and the
time is stored as written; the token `12:5` has length 4, is stored as
`012:5`, and the typed `a:30` is stored as `0a:30`.  None of the stored strings
is a zero-padded `HH:MM` string. -/
theorem addMedication_stores_unpadded :
    parseTimes "8:5" = ["8:5"] ∧ rejectsTime "8:5" = false ∧ isHHMM "8:5" = false ∧
    (addMedication device 1700000000000 shortTimeRequest).2.title = "Scheduled" ∧
    (addMedication device 1700000000000 shortTimeRequest).1.meds
      = [{ id := "1700000000000", name := "Aspirin", times := ["8:5"],
           notifIds := some [("8:5", "notif-0")] }] ∧
    parseTimes "12:5" = ["012:5"] ∧ rejectsTime "012:5" = false ∧ isHHMM "012:5" = false ∧
    (addMedication device 1700000000000
      { initialApp freshDevice with name := "Aspirin", timesInput := "12:5" }).1.meds
      = [{ id := "1700000000000", name := "Aspirin", times := ["012:5"],
           notifIds := some [("012:5", "notif-0")] }] ∧
    parseTimes "a:30" = ["0a:30"] ∧ rejectsTime "0a:30" = false ∧ isHHMM "0a:30" = false ∧
    (addMedication device 1700000000000
      { initialApp freshDevice with name := "Aspirin", timesInput := "a:30" }).1.meds
      = [{ id := "1700000000000", name := "Aspirin", times := ["0a:30"],
           notifIds := some [("0a:30", "notif-0")] }] := by
  decide

/-- What a successful `addMedication` does: it appends exactly one medication at
the end of the list; its name is the trimmed name (not empty), its times are
the list `parseTimes` returns for the input; every time passed the guard of
`scheduleDaily`; one handle was returned per time, and `notifIds` maps every
time to one of the returned handles. -/
theorem addMedication_success {σ : Type} (N : Notifier σ) (now : Nat) (st : App σ)
    (h : (addMedication N now st).2.title = "Scheduled") :
    ∃ ids : List (String × String),
      (addMedication N now st).1.meds
        = st.meds ++ [{ id := toString now, name := jsTrim st.name,
                        times := parseTimes st.timesInput, notifIds := some ids }] ∧
      jsTrim st.name ≠ "" ∧
      parseTimes st.timesInput
        = (((jsSplit st.timesInput ',').map jsTrim).filter (fun t => decide (t ≠ ""))).map
            (fun t => if utf16Length t = 4 then "0" ++ t else t) ∧
      (∀ t, t ∈ parseTimes st.timesInput → rejectsTime t = false) ∧
      (returnedHandles N (jsTrim st.name) (parseTimes st.timesInput) st.notif).length
        = (parseTimes st.timesInput).length ∧
      (∀ t, t ∈ parseTimes st.timesInput →
        ∃ hd, hd ∈ returnedHandles N (jsTrim st.name) (parseTimes st.timesInput) st.notif ∧
          List.lookup t ids = some hd) := by
  by_cases hmiss : jsTrim st.name = "" ∨ parseTimes st.timesInput = []
  · rw [addMedication_missing N now st hmiss] at h
    simp only at h
    exact absurd h (by decide)
  · have hname : jsTrim st.name ≠ "" := fun hh => hmiss (Or.inl hh)
    have hne : parseTimes st.timesInput ≠ [] := fun hh => hmiss (Or.inr hh)
    rw [addMedication_unfold N now st hname hne] at h ⊢
    cases hl : scheduleLoop N (jsTrim st.name) (parseTimes st.timesInput) [] st.notif with
    | mk r s2 =>
      cases r with
      | error e =>
        rw [hl] at h
        simp only at h
        exact absurd h (by decide)
      | ok ids =>
        refine ⟨ids, rfl, hname, rfl, ?_, returnedHandles_length N _ _ [] ids st.notif s2 hl, ?_⟩
        · intro t ht
          by_contra hr
          have hr2 : rejectsTime t = true := by simpa using hr
          obtain ⟨e, s3, hl2⟩ := scheduleLoop_invalid N (jsTrim st.name) _ [] st.notif t ht hr2
          rw [hl] at hl2
          simp at hl2
        · intro t ht
          exact (scheduleLoop_handles N _ _ [] ids st.notif s2 hl t).1 ht

/-- A successful add at a concrete request: `8:00` is padded, the duplicate is
kept. -/
theorem addMedication_success_witness :
    (addMedication device 1700000000000
      { initialApp freshDevice with name := " Aspirin ", timesInput := "8:00, , 20:00,8:00" }).2.title
      = "Scheduled" ∧
    ∃ ids : List (String × String),
      (addMedication device 1700000000000
        { initialApp freshDevice with name := " Aspirin ", timesInput := "8:00, , 20:00,8:00" }).1.meds
        = [{ id := "1700000000000", name := "Aspirin", times := ["08:00", "20:00", "08:00"],
             notifIds := some ids }] := by
  have hok : (addMedication device 1700000000000
      { initialApp freshDevice with name := " Aspirin ", timesInput := "8:00, , 20:00,8:00" }).2.title
      = "Scheduled" := by decide
  obtain ⟨ids, hm, -⟩ := addMedication_success device 1700000000000
    { initialApp freshDevice with name := " Aspirin ", timesInput := "8:00, , 20:00,8:00" } hok
  exact ⟨hok, ids, hm⟩

/-! ## Claims: removing -/

theorem find_filter_none (meds : List Medication) (medId : String) :
    (meds.filter (fun m => m.id != medId)).find? (fun m => m.id == medId) = none := by
  rw [List.find?_eq_none]
  intro m hm
  have := (List.mem_filter.mp hm).2
  simpa using this

/-- C8: `removeMedication` leaves the whole state (medication list and
collaborator) unchanged when no medication has the id; in every case the new
list is the old one without the records carrying that id, the others in their
original order; and a second call with the same id returns the state left by
the first, so it cancels nothing more. -/
theorem removeMedication_idempotent {σ : Type} (N : Notifier σ) (medId : String) (st : App σ) :
    ((∀ m, m ∈ st.meds → m.id ≠ medId) → removeMedication N medId st = st) ∧
    (removeMedication N medId st).meds = st.meds.filter (fun m => m.id != medId) ∧
    (removeMedication N medId st).logs = st.logs ∧
    removeMedication N medId (removeMedication N medId st) = removeMedication N medId st := by
  have hfilter : (removeMedication N medId st).meds = st.meds.filter (fun m => m.id != medId) := by
    unfold removeMedication
    split
    · rename_i hnone
      rw [List.find?_eq_none] at hnone
      symm
      rw [List.filter_eq_self]
      intro m hm
      have := hnone m hm
      simpa using this
    · rfl
  refine ⟨?_, hfilter, ?_, ?_⟩
  · intro hno
    have : st.meds.find? (fun m => m.id == medId) = none := by
      rw [List.find?_eq_none]
      intro m hm
      simpa using hno m hm
    unfold removeMedication
    rw [this]
  · unfold removeMedication
    split <;> rfl
  · have : (removeMedication N medId st).meds.find? (fun m => m.id == medId) = none := by
      rw [hfilter]
      exact find_filter_none st.meds medId
    generalize removeMedication N medId st = st2 at this
    unfold removeMedication
    rw [this]

/-- C8 at a concrete state: an unknown id changes nothing. -/
theorem removeMedication_idempotent_witness :
    (∀ m, m ∈ exampleMeds → m.id ≠ "42") ∧
    (removeMedication device "42" { initialApp freshDevice with meds := exampleMeds }).meds
      = exampleMeds := by
  have hno : ∀ m, m ∈ exampleMeds → m.id ≠ "42" := by decide
  have h := (removeMedication_idempotent device "42"
    { initialApp freshDevice with meds := exampleMeds }).1 hno
  exact ⟨hno, by rw [h]⟩

/-- C10, the code at a request that names `08:00` twice: the add schedules
`notif-0` and `notif-1` and stores only `notif-1` under `08:00`; removing the
new medication cancels `notif-1` and leaves `notif-0` active, although nothing
was active before the add. -/
theorem add_then_remove_leaks_duplicate :
    (addMedication device 1700000000000 duplicateTimeRequest).2.title = "Scheduled" ∧
    (addMedication device 1700000000000 duplicateTimeRequest).1.meds
      = [{ id := "1700000000000", name := "Aspirin", times := ["08:00", "08:00"],
           notifIds := some [("08:00", "notif-1")] }] ∧
    ((addMedication device 1700000000000 duplicateTimeRequest).1.notif.active.map (fun r => r.id))
      = ["notif-0", "notif-1"] ∧
    duplicateTimeRequest.notif.active = [] ∧
    (removeMedication device "1700000000000"
      (addMedication device 1700000000000 duplicateTimeRequest).1).meds = [] ∧
    (removeMedication device "1700000000000"
      (addMedication device 1700000000000 duplicateTimeRequest).1).notif.active
      = [{ id := "notif-0",
           content := { title := "Time for Aspirin", body := "Tap to log your dose.", sound := true },
           trigger := { hour := .num 8, minute := .num 0, repeats := true } }] := by
  decide

/-! ## Claims: loading -/

set_option maxRecDepth 100000

theorem load_logs_read {σ : Type} (decodeMeds : String → Except String (Parsed Medication))
    (decodeLogs : String → Except String (Parsed DoseLog)) (store : String → Option String)
    (s : σ) :
    load decodeMeds decodeLogs store s =
      match jsonParse decodeMeds (orEmptyArray (store STORAGE_KEYS_MEDS)) with
      | .error _ => some (initialApp s)
      | .ok (.array ms) => some { initialApp s with meds := ms, logs := [] }
      | .ok .other => none := by
  have hread : setItem (setItem store STORAGE_KEYS_MEDS "[]") STORAGE_KEYS_LOGS "[]"
      STORAGE_KEYS_LOGS = some "[]" := by
    simp [setItem]
  have hparse : jsonParse decodeLogs (orEmptyArray (some "[]")) = .ok (.array []) := by
    simp [jsonParse, orEmptyArray]
  unfold load
  simp only [hread, hparse]
  cases jsonParse decodeMeds (orEmptyArray (store STORAGE_KEYS_MEDS)) with
  | error e => rfl
  | ok m =>
    cases m with
    | array ms => rfl
    | other => rfl

/-- The code at a store with valid values under both keys: the dose-log read
is served after the mount-time save wrote `[]`, so the stored entry is not
loaded; and at a medications value `null` the render after the load throws. -/
theorem load_at_valid_and_null_store :
    ((load sampleDecodeMeds sampleDecodeLogs validStore freshDevice).map (fun st => st.meds))
      = some exampleMeds ∧
    ((load sampleDecodeMeds sampleDecodeLogs validStore freshDevice).map (fun st => st.logs))
      = some [] ∧
    ((load sampleDecodeMeds sampleDecodeLogs nullMedsStore freshDevice).map (fun st => st.meds))
      = none := by
  refine ⟨by decide, by decide, by decide⟩

/-- C9, as stated, fails: with an unparseable value under `@meds_v1` and a
valid one-entry dose log under `@logs_v1`, the loaded dose log is empty, not
the stored one. -/
theorem load_per_key_counterexample :
    jsonParse sampleDecodeMeds (orEmptyArray (corruptMedsStore STORAGE_KEYS_MEDS))
      = .error "SyntaxError" ∧
    jsonParse sampleDecodeLogs (orEmptyArray (corruptMedsStore STORAGE_KEYS_LOGS))
      = .ok (.array [exampleEntry]) ∧
    ((load sampleDecodeMeds sampleDecodeLogs corruptMedsStore freshDevice).map (fun st => st.meds))
      = some [] ∧
    ((load sampleDecodeMeds sampleDecodeLogs corruptMedsStore freshDevice).map (fun st => st.logs))
      = some [] ∧
    ¬ (((load sampleDecodeMeds sampleDecodeLogs corruptMedsStore freshDevice).map
          (fun st => st.logs)) = some [exampleEntry]) := by
  refine ⟨by rfl, by rfl, by decide, by decide, by decide⟩

/-- C9, amended.  Medications key: when its value is missing or empty, the
load ends in a state whose medication list is empty; when its value cannot be
parsed, the load ends in the mount state, so the medication list and the dose
log are both empty whatever is stored under the dose-log key.  Dose-log key:
when its value is missing or cannot be parsed, the loaded dose log is empty
and the medication list is the one stored under the medications key (empty
when that value is missing, empty or unparseable).  In each of these cases the
load ends in a state, no failure escapes. -/
theorem load_spec {σ : Type} (decodeMeds : String → Except String (Parsed Medication))
    (decodeLogs : String → Except String (Parsed DoseLog)) (store : String → Option String)
    (s : σ) :
    ((store STORAGE_KEYS_MEDS = none ∨ store STORAGE_KEYS_MEDS = some "") →
      ∃ st, load decodeMeds decodeLogs store s = some st ∧ st.meds = []) ∧
    (∀ e, jsonParse decodeMeds (orEmptyArray (store STORAGE_KEYS_MEDS)) = .error e →
      load decodeMeds decodeLogs store s = some (initialApp s) ∧
      (initialApp s).meds = [] ∧ (initialApp s).logs = []) ∧
    ((store STORAGE_KEYS_LOGS = none ∨
        ∃ e, jsonParse decodeLogs (orEmptyArray (store STORAGE_KEYS_LOGS)) = .error e) →
      (∀ ms, jsonParse decodeMeds (orEmptyArray (store STORAGE_KEYS_MEDS)) = .ok (.array ms) →
        load decodeMeds decodeLogs store s = some { initialApp s with meds := ms, logs := [] }) ∧
      ((store STORAGE_KEYS_MEDS = none ∨ store STORAGE_KEYS_MEDS = some "" ∨
          ∃ e, jsonParse decodeMeds (orEmptyArray (store STORAGE_KEYS_MEDS)) = .error e) →
        load decodeMeds decodeLogs store s = some (initialApp s))) := by
  have hmissing : (store STORAGE_KEYS_MEDS = none ∨ store STORAGE_KEYS_MEDS = some "") →
      jsonParse decodeMeds (orEmptyArray (store STORAGE_KEYS_MEDS)) = .ok (.array []) := by
    intro h
    rcases h with h | h <;> rw [h] <;> simp [jsonParse, orEmptyArray]
  have harray : ∀ ms,
      jsonParse decodeMeds (orEmptyArray (store STORAGE_KEYS_MEDS)) = .ok (.array ms) →
      load decodeMeds decodeLogs store s = some { initialApp s with meds := ms, logs := [] } := by
    intro ms h
    rw [load_logs_read, h]
  have herror : ∀ e, jsonParse decodeMeds (orEmptyArray (store STORAGE_KEYS_MEDS)) = .error e →
      load decodeMeds decodeLogs store s = some (initialApp s) := by
    intro e h
    rw [load_logs_read, h]
  refine ⟨?_, ?_, ?_⟩
  · intro h
    exact ⟨_, harray [] (hmissing h), rfl⟩
  · intro e h
    exact ⟨herror e h, rfl, rfl⟩
  · intro _
    refine ⟨harray, ?_⟩
    rintro (h | h | ⟨e, h⟩)
    · exact harray [] (hmissing (Or.inl h))
    · exact harray [] (hmissing (Or.inr h))
    · exact herror e h

/-- C9 at a concrete store: the dose-log value is cut off, the medication list
is loaded as stored and the dose log is empty. -/
theorem load_spec_witness :
    jsonParse sampleDecodeLogs (orEmptyArray (corruptLogsStore STORAGE_KEYS_LOGS))
      = .error "SyntaxError" ∧
    jsonParse sampleDecodeMeds (orEmptyArray (corruptLogsStore STORAGE_KEYS_MEDS))
      = .ok (.array exampleMeds) ∧
    ((load sampleDecodeMeds sampleDecodeLogs corruptLogsStore freshDevice).map (fun st => st.meds))
      = some exampleMeds ∧
    ((load sampleDecodeMeds sampleDecodeLogs corruptLogsStore freshDevice).map (fun st => st.logs))
      = some [] := by
  have hl : jsonParse sampleDecodeLogs (orEmptyArray (corruptLogsStore STORAGE_KEYS_LOGS))
      = .error "SyntaxError" := by rfl
  have hm : jsonParse sampleDecodeMeds (orEmptyArray (corruptLogsStore STORAGE_KEYS_MEDS))
      = .ok (.array exampleMeds) := by rfl
  have h := ((load_spec sampleDecodeMeds sampleDecodeLogs corruptLogsStore freshDevice).2.2
    (Or.inr ⟨"SyntaxError", hl⟩)).1 exampleMeds hm
  refine ⟨hl, hm, ?_, ?_⟩
  · rw [h]; rfl
  · rw [h]; rfl

end MedTrackr
